import Mathlib

/-
Formal model of the nudge repository's activity synchronization and
PR-derivation pipeline.

The JavaScript source is shallowly embedded as executable Lean definitions:
  * `getAthleteActivitiesSince` (src/utils/stravaApi.js): the rate-limited
    paginated fetcher.  Network I/O is modelled by a list of simulated HTTP
    responses, consumed one per request; the function returns its outcome
    together with a log of the requests it made and the backoff sleeps it
    performed (in milliseconds).
  * `storeActivitiesInFirebase`, `getPersonalRecords`, `getRunningPRs`,
    `getCyclingPRs` (src/utils/firebaseService.js): the Firestore document
    store is modelled as an association list keyed by document path, and the
    query snapshot consumed by the aggregation passes is modelled as the list
    of activity records in iteration order.
  * `syncAllDataToFirebase`, `needsSync` (src/utils/dataSyncService.js): each
    fallible stage is modelled by an `Except` outcome.

JavaScript numbers are modelled as rationals (`ℚ`); JavaScript
null/undefined as `Option`; JavaScript truthiness of numbers and strings is
made explicit (`truthyQ`, `truthyStr`).
-/

namespace Nudge

/-! ### JavaScript value helpers -/

/-- Truthiness of a possibly-missing JS number: `undefined`, `null` and `0`
are falsy. -/
def truthyQ : Option ℚ → Bool
  | none => false
  | some x => x != 0

/-- Truthiness of a possibly-missing JS string: `undefined`, `null` and `""`
are falsy. -/
def truthyStr : Option String → Bool
  | none => false
  | some s => s != ""

/-- `x || y` for possibly-missing strings (first truthy operand). -/
def jsOrStr (x y : Option String) : Option String :=
  if truthyStr x then x else y

/-- `s.toLowerCase()` for the ASCII sport names the code compares
(character-wise lowercasing). -/
def toLowerCase (s : String) : String := ⟨s.data.map Char.toLower⟩

/-! ### Activity record

Fields of a Strava activity object as used by the store and the aggregation
passes.  Missing / null fields are `none`. -/

structure Activity where
  id : Nat
  name : String
  type_ : Option String
  sport_type : Option String
  distance : Option ℚ
  moving_time : Option ℚ
  elapsed_time : Option ℚ
  total_elevation_gain : Option ℚ
  start_date : String
  start_date_local : Option String
  timezone : Option String
  average_speed : Option ℚ
  max_speed : Option ℚ
  average_heartrate : Option ℚ
  max_heartrate : Option ℚ
  achievement_count : Option Nat
  kudos_count : Option Nat
  comment_count : Option Nat
  athlete_count : Option Nat
  map : Option String
  start_latlng : Option (List ℚ)
  end_latlng : Option (List ℚ)
deriving DecidableEq, Repr

/-- `a.sport_type || a.type || 'Unknown'`. -/
def sportOf (a : Activity) : String :=
  match jsOrStr a.sport_type a.type_ with
  | some s => if s = "" then "Unknown" else s
  | none => "Unknown"

/-- The `{ id, name, start_date }` reference stored with a record. -/
structure ActRef where
  id : Nat
  name : String
  start_date : String
deriving DecidableEq, Repr

def refOf (a : Activity) : ActRef :=
  ⟨a.id, a.name, a.start_date⟩

/-- The `{ id, name, start_date, distance }` reference stored with a
distance-target PR slot. -/
structure ActRefD where
  id : Nat
  name : String
  start_date : String
  distance : Option ℚ
deriving DecidableEq, Repr

def refDOf (a : Activity) : ActRefD :=
  ⟨a.id, a.name, a.start_date, a.distance⟩

/-! ### Rate-limited paginated fetcher (`getAthleteActivitiesSince`)

One simulated HTTP response per request the code makes.  `retryAfter` is the
parsed `Retry-After` header when the header is present and parses to a
number, `data` is the response body. -/

/-- A response body: a JSON array, some other (truthy) value such as an
error object, or null/undefined. -/
inductive RespData (α : Type) where
  | arr (xs : List α)
  | obj
  | nullish
deriving DecidableEq, Repr

structure StravaResp (α : Type) where
  status : Nat
  retryAfter : Option Nat
  data : RespData α
deriving DecidableEq, Repr

/-- Events observable from outside the fetcher: outbound requests (with the
page number and the retry attempt index) and backoff sleeps (ms). -/
inductive FetchEvent where
  | request (page : Nat) (attempt : Nat)
  | sleep (ms : Nat)
deriving DecidableEq, Repr

/-- Outcome of the inner per-page retry loop. -/
inductive PageOutcome (α : Type) where
  | success (r : StravaResp α)
  | exhausted (last : Option (StravaResp α))
  | authError (status : Nat)
  | unexpectedStatus (status : Nat)
  | noMoreResponses
deriving DecidableEq, Repr

structure PageOut (α : Type) where
  outcome : PageOutcome α
  rest : List (StravaResp α)
  events : List FetchEvent
deriving DecidableEq, Repr

/-- `const maxRetries = 5`. -/
def maxRetries : Nat := 5

/-- `parseInt(response.headers['retry-after']) || null`: a header that is
absent, unparseable, or parses to `0` yields `null`. -/
def jsParseRetryAfter : Option Nat → Option Nat
  | none => none
  | some n => if n = 0 then none else some n

/-- The inner `while (attempt <= maxRetries)` loop of
`getAthleteActivitiesSince`.  `budget` counts the attempts the loop guard
still allows (`maxRetries + 1 - attempt`, so the guard `attempt <= maxRetries`
is `budget > 0`); `attempt` is the JS `attempt` counter and `lastResp` the JS
`response` variable (null before the first request).  Note that the `throw`
for 401/403 and for other unexpected statuses happens inside the same `try`
whose `catch` implements the backoff-and-retry, so those errors propagate
only once `attempt >= maxRetries`. -/
def fetchPageLoop (page : Nat) :
    Nat → List (StravaResp α) → Nat → Option (StravaResp α) → PageOut α
  | 0, server, _, lastResp => ⟨.exhausted lastResp, server, []⟩
  | budget + 1, server, attempt, _lastResp =>
    match server with
    | [] => ⟨.noMoreResponses, [], []⟩
    | r :: rest =>
      if r.status = 429 then
        let backoffMs :=
          match jsParseRetryAfter r.retryAfter with
          | some ra => ra * 1000
          | none => 2 ^ attempt * 1000
        let out := fetchPageLoop page budget rest (attempt + 1) (some r)
        ⟨out.outcome, out.rest, .request page attempt :: .sleep backoffMs :: out.events⟩
      else if 500 ≤ r.status ∧ r.status < 600 then
        let out := fetchPageLoop page budget rest (attempt + 1) (some r)
        ⟨out.outcome, out.rest,
          .request page attempt :: .sleep (2 ^ attempt * 1000) :: out.events⟩
      else if r.status = 401 ∨ r.status = 403 then
        if maxRetries ≤ attempt then ⟨.authError r.status, rest, [.request page attempt]⟩
        else
          let out := fetchPageLoop page budget rest (attempt + 1) (some r)
          ⟨out.outcome, out.rest,
            .request page attempt :: .sleep (2 ^ attempt * 1000) :: out.events⟩
      else if r.status = 200 then ⟨.success r, rest, [.request page attempt]⟩
      else
        if maxRetries ≤ attempt then
          ⟨.unexpectedStatus r.status, rest, [.request page attempt]⟩
        else
          let out := fetchPageLoop page budget rest (attempt + 1) (some r)
          ⟨out.outcome, out.rest,
            .request page attempt :: .sleep (2 ^ attempt * 1000) :: out.events⟩

/-- Final outcome of the whole fetch. -/
inductive FetchResult (α : Type) where
  | ok (activities : List α)
  | authError (status : Nat)
  | unexpectedStatus (status : Nat)
  | noMoreResponses
  | outOfFuel
deriving DecidableEq, Repr

structure FetchOut (α : Type) where
  result : FetchResult α
  events : List FetchEvent
deriving DecidableEq, Repr

/-- The outer `while (hasMoreData)` pagination loop of
`getAthleteActivitiesSince`.  The fuel argument only bounds the number of
pages the simulation may process; the top-level wrapper supplies more fuel
than the simulated server can ever serve pages. -/
def fetchPagesAux (perPage : Nat) :
    Nat → List (StravaResp α) → Nat → List α → FetchOut α
  | 0, _, _, _ => ⟨.outOfFuel, []⟩
  | fuel + 1, server, page, acc =>
    let pg := fetchPageLoop page (maxRetries + 1) server 0 none
    match pg.outcome with
    | .authError s => ⟨.authError s, pg.events⟩
    | .unexpectedStatus s => ⟨.unexpectedStatus s, pg.events⟩
    | .noMoreResponses => ⟨.noMoreResponses, pg.events⟩
    | .exhausted none => ⟨.ok acc, pg.events⟩
    | .success r | .exhausted (some r) =>
      match r.data with
      | .nullish => ⟨.ok acc, pg.events⟩
      | .obj => ⟨.ok acc, pg.events⟩
      | .arr [] => ⟨.ok acc, pg.events⟩
      | .arr (x :: xs) =>
        if (x :: xs).length < perPage then ⟨.ok (acc ++ (x :: xs)), pg.events⟩
        else
          let next := fetchPagesAux perPage fuel pg.rest (page + 1) (acc ++ (x :: xs))
          ⟨next.result, pg.events ++ FetchEvent.sleep 250 :: next.events⟩

/-- `getAthleteActivitiesSince(accessToken, afterTimestamp, perPage = 100)`.
The access token and the `after` filter only shape the outbound requests,
which the simulated `server` list already answers, so they do not appear as
parameters of the model. -/
def getAthleteActivitiesSince (server : List (StravaResp α)) (perPage : Nat) :
    FetchOut α :=
  fetchPagesAux perPage (server.length + 1) server 1 []

/-! ### Upsert store (`storeActivitiesInFirebase`)

The Firestore sub-collection `athletes/{athleteId}/activities/{activityId}`
is modelled as an association list keyed by the pair
`(athleteId, activityId)`.  `Timestamp.now()` is modelled by an `Int`
supplied by the caller. -/

/-- The document held at `athletes/{athleteId}/activities/{id}`: the fields
`activityData` writes, plus `unmentioned`, the fields of a pre-existing
document that the write does not mention and that `{ merge: true }`
preserves. -/
structure ActivityDoc where
  id : Nat
  name : String
  type_ : Option String
  distance : Option ℚ
  moving_time : Option ℚ
  elapsed_time : Option ℚ
  total_elevation_gain : Option ℚ
  sport_type : Option String
  start_date : String
  start_date_local : Option String
  timezone : Option String
  average_speed : ℚ
  max_speed : ℚ
  average_heartrate : ℚ
  max_heartrate : ℚ
  achievement_count : Nat
  kudos_count : Nat
  comment_count : Nat
  athlete_count : Nat
  map : String
  start_latlng : List ℚ
  end_latlng : List ℚ
  stored_at : Int
  updated_at : Int
  unmentioned : List (String × String)
deriving DecidableEq, Repr

/-- The `activityData` object built for one activity.  `|| 0` / `|| 1`
defaults become `getD`; `activity.map || {}` is modelled with the empty
string standing for the empty object. -/
def activityData (now : Int) (a : Activity) : ActivityDoc where
  id := a.id
  name := a.name
  type_ := a.type_
  distance := a.distance
  moving_time := a.moving_time
  elapsed_time := a.elapsed_time
  total_elevation_gain := a.total_elevation_gain
  sport_type := jsOrStr a.sport_type a.type_
  start_date := a.start_date
  start_date_local := a.start_date_local
  timezone := a.timezone
  average_speed := a.average_speed.getD 0
  max_speed := a.max_speed.getD 0
  average_heartrate := a.average_heartrate.getD 0
  max_heartrate := a.max_heartrate.getD 0
  achievement_count := a.achievement_count.getD 0
  kudos_count := a.kudos_count.getD 0
  comment_count := a.comment_count.getD 0
  athlete_count := a.athlete_count.getD 1
  map := a.map.getD ""
  start_latlng := a.start_latlng.getD []
  end_latlng := a.end_latlng.getD []
  stored_at := now
  updated_at := now
  unmentioned := []

/-- The activities store: association list keyed by
`(athleteId, activityId)`. -/
abbrev FireStore : Type := List ((String × String) × ActivityDoc)

def lookupDoc (st : FireStore) (k : String × String) : Option ActivityDoc :=
  (List.find? (fun e => e.1 == k) st).map (·.2)

/-- Number of documents stored at key `k`. -/
def countKey (st : FireStore) (k : String × String) : Nat :=
  (List.filter (fun e => e.1 == k) st).length

/-- `setDoc(ref, data, { merge: true })`: overwrite the mentioned fields,
keep the unmentioned ones; insert the document if absent. -/
def setDocMerge (st : FireStore) (k : String × String) (d : ActivityDoc) : FireStore :=
  match List.find? (fun e => e.1 == k) st with
  | some old =>
    List.map (fun e => if e.1 == k then (k, { d with unmentioned := old.2.unmentioned }) else e) st
  | none => st ++ [(k, d)]

structure StoreResult where
  success : Bool
  count : Nat
  message : String
deriving DecidableEq, Repr

/-- `storeActivitiesInFirebase(athleteId, activities)`: upsert each activity
under `athletes/{athleteId}/activities/{String(activity.id)}` with merge
semantics, counting the stored activities. -/
def storeActivitiesInFirebase (now : Int) (athleteId : String)
    (activities : List Activity) (st : FireStore) : FireStore × StoreResult :=
  let out := activities.foldl
    (fun (acc : FireStore × Nat) a =>
      (setDocMerge acc.1 (athleteId, toString a.id) (activityData now a), acc.2 + 1))
    (st, 0)
  (out.1, ⟨true, out.2,
    "Successfully stored " ++ toString out.2 ++ " activities in Firebase"⟩)

/-! ### Sync orchestrator (`syncAllDataToFirebase`) and staleness check -/

structure StageResult where
  success : Bool
  error : Option String
deriving DecidableEq, Repr

structure ActivitiesStageResult where
  success : Bool
  count : Option Nat
  message : Option String
  error : Option String
deriving DecidableEq, Repr

structure SyncResultsState where
  athlete : Option StageResult
  stats : Option StageResult
  activities : Option ActivitiesStageResult
  errors : List String
deriving DecidableEq, Repr

structure SyncOutcome where
  success : Bool
  results : SyncResultsState
  errors : List String
deriving DecidableEq, Repr

/-- `syncAllDataToFirebase`.  Each stage (fetch + store of the profile, the
stats, and the activities) is modelled by one `Except` outcome: `.ok` when
the stage's try-block completes, `.error e` when it throws with message `e`.
The activities stage carries the stored-count on success. -/
def syncAllDataToFirebase (profileStage : Except String Unit)
    (statsStage : Except String Unit) (activitiesStage : Except String Nat) :
    SyncOutcome :=
  let r0 : SyncResultsState := ⟨none, none, none, []⟩
  let r1 :=
    match profileStage with
    | .ok _ => { r0 with athlete := some ⟨true, none⟩ }
    | .error e =>
      { r0 with
        errors := r0.errors ++ ["Athlete profile sync failed: " ++ e]
        athlete := some ⟨false, some e⟩ }
  let r2 :=
    match statsStage with
    | .ok _ => { r1 with stats := some ⟨true, none⟩ }
    | .error e =>
      { r1 with
        errors := r1.errors ++ ["Athlete stats sync failed: " ++ e]
        stats := some ⟨false, some e⟩ }
  let r3 :=
    match activitiesStage with
    | .ok n =>
      { r2 with
        activities := some ⟨true, some n,
          some ("Successfully stored " ++ toString n ++ " activities in Firebase"), none⟩ }
    | .error e =>
      { r2 with
        errors := r2.errors ++ ["Activities sync failed: " ++ e]
        activities := some ⟨false, none, none, some e⟩ }
  ⟨r3.errors.isEmpty, r3, r3.errors⟩

/-- The stored sync status as read back by `needsSync`.  `lastSyncTime` is
the stored ISO timestamp parsed to epoch milliseconds; `none` models a
missing field. -/
structure SyncStatusDoc where
  lastSyncTime : Option Int
  success : Bool
  errors : List String
deriving DecidableEq, Repr

/-- `needsSync(athleteId, maxAgeHours = 24)`.  `fetched` is the result of
`getSyncStatus` (`.error` when reading the status throws), `nowMs` is
`Date.now()`. -/
def needsSync (fetched : Except String (Option SyncStatusDoc)) (nowMs : Int)
    (maxAgeHours : ℚ) : Bool :=
  match fetched with
  | .error _ => true
  | .ok none => true
  | .ok (some st) =>
    match st.lastSyncTime with
    | none => true
    | some lastSync =>
      decide ((lastSync : ℚ) < (nowMs : ℚ) - maxAgeHours * (60 * 60 * 1000))

/-- Builds an activity record from the fields the core pipeline inspects,
leaving every other field absent. -/
def mkActivity (id : Nat) (name : String) (sport_type type_ : Option String)
    (distance moving_time total_elevation_gain average_speed : Option ℚ)
    (start_date : String) : Activity :=
  ⟨id, name, type_, sport_type, distance, moving_time, none,
   total_elevation_gain, start_date, none, none, average_speed, none, none,
   none, none, none, none, none, none, none, none⟩

/-! ### PR aggregation engine

Each pass is a single fold over the athlete's stored activities in query
iteration order (the source orders by `start_date` descending; the order is
a parameter here). -/

/-- A `{ value, activity }` record tracked by the strict-max passes
(`longest_distance`, `max_average_speed`, `max_total_elevation_gain`,
`longest`, `biggestClimb` — the source names the number field `value`,
`distance` or `elevation` depending on the record). -/
structure RecordEntry where
  value : ℚ
  activity : Option ActRef
deriving DecidableEq, Repr

/-- The strict-improvement update shared by every max record:
`if (typeof v === 'number' && v > current.value)` replace, else keep. -/
def updEntry (v : Option ℚ) (r : ActRef) (e : RecordEntry) : RecordEntry :=
  match v with
  | none => e
  | some x => if x > e.value then ⟨x, some r⟩ else e

/-! #### `getPersonalRecords` -/

structure SportRecord where
  total_activities : Nat
  longest_distance : RecordEntry
  max_average_speed : RecordEntry
  max_total_elevation_gain : RecordEntry
deriving DecidableEq, Repr

def emptySportRecord : SportRecord := ⟨0, ⟨0, none⟩, ⟨0, none⟩, ⟨0, none⟩⟩

/-- The body of the `querySnapshot.forEach` of `getPersonalRecords` for one
activity, applied to its sport's record. -/
def sportRecordUpdate (a : Activity) (s : SportRecord) : SportRecord where
  total_activities := s.total_activities + 1
  longest_distance := updEntry a.distance (refOf a) s.longest_distance
  max_average_speed := updEntry a.average_speed (refOf a) s.max_average_speed
  max_total_elevation_gain :=
    updEntry a.total_elevation_gain (refOf a) s.max_total_elevation_gain

/-- One `forEach` step of `getPersonalRecords` on the `sports` object
(modelled as a map from sport name to its record; absent key = `none`). -/
def prStep (sports : String → Option SportRecord) (a : Activity) :
    String → Option SportRecord :=
  let sport := sportOf a
  let s := (sports sport).getD emptySportRecord
  fun l => if l = sport then some (sportRecordUpdate a s) else sports l

def getPersonalRecords (acts : List Activity) : String → Option SportRecord :=
  acts.foldl prStep (fun _ => none)

/-! #### `getRunningPRs` and `getCyclingPRs` -/

/-- A per-distance-target result slot
`{ timeSeconds, activity, method }` (method `"exact"` or `"estimate"`). -/
structure PRSlot where
  timeSeconds : Option ℚ
  activity : Option ActRefD
  method : Option String
deriving DecidableEq, Repr

def emptyPRSlot : PRSlot := ⟨none, none, none⟩

/-- The running target table (label, meters). -/
def runTargets : List (String × ℚ) :=
  [("400m", 400), ("1km", 1000), ("1 mile", 1609.34), ("5k", 5000),
   ("10k", 10000), ("15k", 15000), ("Half Marathon", 21097.5),
   ("Marathon", 42195)]

/-- The cycling target table (label, meters). -/
def cyclingTargets : List (String × ℚ) :=
  [("5 mile", 1609.34 * 5), ("10K", 10000), ("10 mile", 1609.34 * 10),
   ("20K", 20000), ("30K", 30000), ("40K", 40000), ("50K", 50000),
   ("80K", 80000), ("50 mile", 1609.34 * 50), ("90K", 90000),
   ("100K", 100000), ("100 mile", 1609.34 * 100), ("180K", 180000)]

/-- `results[t.label].timeSeconds === null || cand < results[t.label].timeSeconds`. -/
def slotImproves (slot : PRSlot) (cand : ℚ) : Bool :=
  match slot.timeSeconds with
  | none => true
  | some t => cand < t

/-- The per-target body of the target loop shared by `getRunningPRs` and
`getCyclingPRs`: an exact match within 5% of the target uses `moving_time`
(and `continue`s), otherwise an activity at least as long as the target
contributes `moving_time * (target / distance)`. -/
def updateTargetSlot (a : Activity) (D : ℚ) (slot : PRSlot) : PRSlot :=
  let d := a.distance.getD 0
  let mt := a.moving_time.getD 0
  if |d - D| ≤ D * 0.05 then
    if slotImproves slot mt then ⟨some mt, some (refDOf a), some "exact"⟩
    else slot
  else if d ≥ D then
    let est := mt * (D / d)
    if slotImproves slot est then ⟨some est, some (refDOf a), some "estimate"⟩
    else slot
  else slot

structure RunningPRs where
  slots : Fin runTargets.length → PRSlot
  longest : RecordEntry

/-- One `querySnapshot.forEach` step of `getRunningPRs`. -/
def stepRunningPR (st : RunningPRs) (a : Activity) : RunningPRs :=
  let sport := sportOf a
  if toLowerCase sport != "run" && toLowerCase sport != "running" then st
  else if !truthyQ a.distance || !truthyQ a.moving_time then st
  else
    { slots := fun i => updateTargetSlot a (runTargets.get i).2 (st.slots i)
      longest := updEntry a.distance (refOf a) st.longest }

def getRunningPRs (acts : List Activity) : RunningPRs :=
  acts.foldl stepRunningPR ⟨fun _ => emptyPRSlot, ⟨0, none⟩⟩

structure CyclingPRs where
  slots : Fin cyclingTargets.length → PRSlot
  longest : RecordEntry
  biggestClimb : RecordEntry
  totalElevationGain : ℚ

/-- One `querySnapshot.forEach` step of `getCyclingPRs`, including the
duplicated `'ride'` disjunct of the source's sport filter. -/
def stepCyclingPR (st : CyclingPRs) (a : Activity) : CyclingPRs :=
  let sport := sportOf a
  if sport == "" then st
  else
    let sLower := toLowerCase sport
    if sLower != "ride" && sLower != "cycling" && sLower != "ride" then st
    else if !truthyQ a.distance || !truthyQ a.moving_time then st
    else
      let climb := a.total_elevation_gain.getD 0
      { slots := fun i => updateTargetSlot a (cyclingTargets.get i).2 (st.slots i)
        longest := updEntry a.distance (refOf a) st.longest
        biggestClimb := updEntry (some climb) (refOf a) st.biggestClimb
        totalElevationGain := st.totalElevationGain + climb }

def getCyclingPRs (acts : List Activity) : CyclingPRs :=
  acts.foldl stepCyclingPR ⟨fun _ => emptyPRSlot, ⟨0, none⟩, ⟨0, none⟩, 0⟩

/-! #### Claim-side vocabulary for the aggregation passes -/

/-- A run activity the running-PR pass processes: sport `run`/`running`
case-insensitively, with truthy distance and moving time. -/
def qualifiesRun (a : Activity) : Bool :=
  (toLowerCase (sportOf a) == "run" || toLowerCase (sportOf a) == "running")
    && truthyQ a.distance && truthyQ a.moving_time

/-- A ride the cycling-PR pass processes: sport `ride`/`cycling`
case-insensitively, with truthy distance and moving time. -/
def qualifiesCycle (a : Activity) : Bool :=
  (toLowerCase (sportOf a) == "ride" || toLowerCase (sportOf a) == "cycling")
    && truthyQ a.distance && truthyQ a.moving_time

/-- The candidate time one activity offers for target distance `D`:
`moving_time` when within 5% of `D`, the linearly scaled time when at least
`D`, nothing otherwise. -/
def candidateTime (D : ℚ) (a : Activity) : Option ℚ :=
  let d := a.distance.getD 0
  let mt := a.moving_time.getD 0
  if |d - D| ≤ D * 0.05 then some mt
  else if d ≥ D then some (mt * (D / d))
  else none

/-- Which method a candidate for target `D` is recorded under. -/
def candidateMethod (D : ℚ) (a : Activity) : String :=
  if |a.distance.getD 0 - D| ≤ D * 0.05 then "exact" else "estimate"

/-- Maximum of a list of rationals against the initial record value `0`. -/
def listMaxQ (xs : List ℚ) : ℚ := xs.foldl max 0

/-- The first activity in iteration order whose measure equals `v`. -/
def firstAttainer (f : Activity → Option ℚ) (v : ℚ) (l : List Activity) :
    Option ActRef :=
  (l.find? (fun a => f a == some v)).map refOf

/-- Folding the strict-improvement update over a list of activities. -/
def entryFold (f : Activity → Option ℚ) (l : List Activity) (e0 : RecordEntry) :
    RecordEntry :=
  l.foldl (fun e a => updEntry (f a) (refOf a) e) e0

/-- Folding the per-target slot update over a list of activities. -/
def slotFold (D : ℚ) (l : List Activity) : PRSlot :=
  l.foldl (fun s a => updateTargetSlot a D s) emptyPRSlot

/-- Folding the per-activity record update of `getPersonalRecords` over one
sport's group of activities. -/
def sportGroupFold (l : List Activity) (r0 : SportRecord) : SportRecord :=
  l.foldl (fun r a => sportRecordUpdate a r) r0

/-! #### Concrete activities used in the example scenarios -/

/-- A 5000 m run in 1500 s: an exact match for the 5k target. -/
def run5kExample : Activity :=
  mkActivity 1 "Parkrun" (some "Run") none (some 5000) (some 1500) none none
    "2024-03-02"

/-- A 10000 m run in 2800 s: scales to 1400 s for the 5k target. -/
def run10kExample : Activity :=
  mkActivity 2 "Long Run" (some "Run") none (some 10000) (some 2800) none none
    "2024-03-01"

/-- First of two hikes with the same 7000 m distance. -/
def tieFirstHike : Activity :=
  mkActivity 11 "Hill Day" (some "Hike") none (some 7000) (some 5400) (some 5)
    (some 2) "2024-02-02"

/-- Second hike with the same 7000 m distance but more elevation. -/
def tieSecondHike : Activity :=
  mkActivity 12 "Ridge Day" (some "Hike") none (some 7000) (some 5700) (some 9)
    (some 2) "2024-02-01"

/-- An activity with no `sport_type`, grouped under its `type`. -/
def fallbackTypedHike : Activity :=
  mkActivity 13 "Old Hike" none (some "Hike") (some 100) (some 60) none none
    "2024-02-03"

/-- An activity with neither `sport_type` nor `type`, grouped under
`"Unknown"`. -/
def fallbackUnknown : Activity :=
  mkActivity 14 "Mystery" none none (some 100) (some 60) none none "2024-02-04"

/-- A 40 km ride climbing 500 m. -/
def rideExample : Activity :=
  mkActivity 21 "Gran Fondo" (some "Ride") none (some 40000) (some 4000)
    (some 500) none "2024-01-05"

/-- A 20 km activity of sport `CYCLING` climbing 300 m. -/
def cyclingExample : Activity :=
  mkActivity 22 "Trainer" (some "CYCLING") none (some 20000) (some 2500)
    (some 300) none "2024-01-04"

/-- A ride with a zero distance: skipped by the PR passes despite its
1000 m of recorded climbing. -/
def zeroDistanceRide : Activity :=
  mkActivity 23 "Broken Upload" (some "Ride") none (some 0) (some 100)
    (some 1000) none "2024-01-03"

/-! ### Theorems about the fetcher -/

/-- C1: the claim says five consecutive 429 responses cause exactly five
delayed retries and then a terminal failure.  The code instead keeps the
last 429 response when the retry budget is exhausted, treats its non-array
body as the end-of-pagination signal, and returns success with an empty
activity list; it also performs six requests and six backoff sleeps
(1s, 2s, 4s, 8s, 16s, 32s) on the way.  The second conjunct confirms the
claimed backoff rule itself: a 429 carrying `Retry-After: 7` sleeps 7000 ms
and a 200 on the next attempt short-circuits to success. -/
theorem rate_limited_fetch_exhaustion_returns_empty_success :
    getAthleteActivitiesSince (α := Nat) (List.replicate 7 ⟨429, none, .obj⟩) 100
      = ⟨.ok [],
          [.request 1 0, .sleep 1000, .request 1 1, .sleep 2000,
           .request 1 2, .sleep 4000, .request 1 3, .sleep 8000,
           .request 1 4, .sleep 16000, .request 1 5, .sleep 32000]⟩
    ∧ getAthleteActivitiesSince (α := Nat)
        [⟨429, some 7, .obj⟩, ⟨200, none, .arr [10, 20, 30]⟩] 100
      = ⟨.ok [10, 20, 30], [.request 1 0, .sleep 7000, .request 1 1]⟩ := by
  constructor <;> decide

/-- C2: the claim says a 401/403 response makes the call fail immediately
with no retry.  The authentication error is thrown inside the same `try`
whose `catch` implements the backoff-and-retry, so a persistent 401 is in
fact retried five times with exponential backoff (six requests, sleeps of
1s, 2s, 4s, 8s, 16s) before the authentication error finally propagates. -/
theorem auth_error_is_retried_with_backoff :
    getAthleteActivitiesSince (α := Nat) (List.replicate 6 ⟨401, none, .obj⟩) 100
      = ⟨.authError 401,
          [.request 1 0, .sleep 1000, .request 1 1, .sleep 2000,
           .request 1 2, .sleep 4000, .request 1 3, .sleep 8000,
           .request 1 4, .sleep 16000, .request 1 5]⟩ := by
  decide

set_option maxRecDepth 4000 in
/-- C4: pagination accumulates pages in order starting at page 1 and stops
exactly when a page comes back empty or with fewer than `perPage` items.
The first conjunct characterises one pagination step on a 200 response: an
empty page ends the fetch keeping the accumulator, a short page ends it
after appending the page, and a full page appends, sleeps 250 ms, and
continues with the next page number.  The second conjunct runs the claimed
scenario: pages of sizes 100, 100 and 37 (with a fourth page available on
the simulated server) yield exactly the 237 accumulated activities and no
request is made after the 37-item page. -/
theorem pagination_terminates_on_short_page :
    (∀ (fuel page perPage : Nat) (acc xs : List Nat) (rest : List (StravaResp Nat)),
      fetchPagesAux perPage (fuel + 1) (⟨200, none, .arr xs⟩ :: rest) page acc
        = if xs.length = 0 then ⟨.ok acc, [.request page 0]⟩
          else if xs.length < perPage then ⟨.ok (acc ++ xs), [.request page 0]⟩
          else ⟨(fetchPagesAux perPage fuel rest (page + 1) (acc ++ xs)).result,
                .request page 0 :: .sleep 250 ::
                  (fetchPagesAux perPage fuel rest (page + 1) (acc ++ xs)).events⟩)
    ∧ getAthleteActivitiesSince (α := Nat)
        [⟨200, none, .arr (List.range 100)⟩,
         ⟨200, none, .arr (List.range' 100 100)⟩,
         ⟨200, none, .arr (List.range' 200 37)⟩,
         ⟨200, none, .arr (List.range' 300 100)⟩] 100
      = ⟨.ok (List.range 237),
          [.request 1 0, .sleep 250, .request 2 0, .sleep 250, .request 3 0]⟩ := by
  constructor
  · intro fuel page perPage acc xs rest
    have hloop : fetchPageLoop page (maxRetries + 1) (⟨200, none, .arr xs⟩ :: rest) 0 none
        = ⟨.success ⟨200, none, .arr xs⟩, rest, [.request page 0]⟩ := rfl
    cases xs with
    | nil => simp [fetchPagesAux, hloop]
    | cons x xs =>
      simp only [fetchPagesAux, hloop]
      by_cases h : (x :: xs).length < perPage <;> simp [h]
  · decide

/-! ### Theorems about the upsert store -/

theorem setDocMerge_cons_ne (e : (String × String) × ActivityDoc)
    (st : FireStore) (k : String × String) (d : ActivityDoc)
    (h : (e.1 == k) = false) :
    setDocMerge (e :: st) k d = e :: setDocMerge st k d := by
  have hne : ¬ e.1 = k := by simpa using h
  cases hf : List.find? (fun x => x.1 == k) st with
  | none => simp [setDocMerge, List.find?_cons, h, hf]
  | some old => simp [setDocMerge, List.find?_cons, h, hf, hne]

theorem lookupDoc_cons_ne (e : (String × String) × ActivityDoc)
    (st : FireStore) (k : String × String) (h : (e.1 == k) = false) :
    lookupDoc (e :: st) k = lookupDoc st k := by
  simp [lookupDoc, List.find?_cons, h]

theorem countKey_cons_ne (e : (String × String) × ActivityDoc)
    (st : FireStore) (k : String × String) (h : (e.1 == k) = false) :
    countKey (e :: st) k = countKey st k := by
  simp [countKey, List.filter_cons, h]

theorem lookupDoc_setDocMerge_self (st : FireStore) (k : String × String)
    (d : ActivityDoc) :
    lookupDoc (setDocMerge st k d) k
      = some (match lookupDoc st k with
              | some o => { d with unmentioned := o.unmentioned }
              | none => d) := by
  induction st with
  | nil => simp [setDocMerge, lookupDoc]
  | cons e st ih =>
    cases h : (e.1 == k) with
    | false =>
      rw [setDocMerge_cons_ne e st k d h, lookupDoc_cons_ne e _ k h,
        lookupDoc_cons_ne e st k h, ih]
    | true =>
      have hek : e.1 = k := by simpa using h
      simp [setDocMerge, lookupDoc, List.find?_cons, h, hek]

theorem countKey_map_replace (st : FireStore) (k : String × String)
    (m : ActivityDoc) :
    countKey (List.map (fun x => if x.1 == k then (k, m) else x) st) k
      = countKey st k := by
  induction st with
  | nil => rfl
  | cons f fs ih =>
    cases hfk : (f.1 == k) with
    | false =>
      have hne : ¬ f.1 = k := by simpa using hfk
      simpa [countKey, List.filter_cons, hfk, hne] using ih
    | true =>
      have heq : f.1 = k := by simpa using hfk
      simpa [countKey, List.filter_cons, hfk, heq] using ih

theorem countKey_setDocMerge_self (st : FireStore) (k : String × String)
    (d : ActivityDoc) :
    countKey (setDocMerge st k d) k
      = if countKey st k = 0 then 1 else countKey st k := by
  induction st with
  | nil => simp [setDocMerge, countKey]
  | cons e st ih =>
    cases h : (e.1 == k) with
    | false =>
      rw [setDocMerge_cons_ne e st k d h, countKey_cons_ne e _ k h,
        countKey_cons_ne e st k h, ih]
    | true =>
      have hcnt : countKey (e :: st) k = countKey st k + 1 := by
        simp [countKey, List.filter_cons, h]
      simp only [setDocMerge, List.find?_cons, h]
      rw [countKey_map_replace (e :: st) k, hcnt]
      simp

theorem storeActivities_count (now : Int) (athleteId : String)
    (activities : List Activity) (st : FireStore) (n : Nat) :
    (activities.foldl
      (fun (acc : FireStore × Nat) a =>
        (setDocMerge acc.1 (athleteId, toString a.id) (activityData now a), acc.2 + 1))
      (st, n)).2 = n + activities.length := by
  induction activities generalizing st n with
  | nil => simp
  | cons a acts ih => rw [List.foldl_cons, ih, List.length_cons]; omega

/-- C6: `storeActivitiesInFirebase` upserts each activity keyed by
`(athleteId, String(activity.id))` with merge semantics and is idempotent.
First conjunct: the returned `storedCount` equals the number of input
activities.  Second conjunct: starting from any store holding at most one
document at that key, storing the same activity twice leaves exactly one
document at the key, and that document is exactly `activityData` stamped at
the second write time (so `updated_at` has advanced to the later time and
`id` still equals the activity's id) with the fields unmentioned by the
write still carried over from the pre-existing document. -/
theorem store_activities_idempotent_upsert :
    (∀ (now : Int) (athleteId : String) (activities : List Activity) (st : FireStore),
      (storeActivitiesInFirebase now athleteId activities st).2.count
        = activities.length)
    ∧ (∀ (t1 t2 : Int) (athleteId : String) (a : Activity) (st : FireStore),
        countKey st (athleteId, toString a.id) ≤ 1 →
        countKey ((storeActivitiesInFirebase t2 athleteId [a]
            ((storeActivitiesInFirebase t1 athleteId [a] st).1)).1)
            (athleteId, toString a.id) = 1
        ∧ lookupDoc ((storeActivitiesInFirebase t2 athleteId [a]
            ((storeActivitiesInFirebase t1 athleteId [a] st).1)).1)
            (athleteId, toString a.id)
          = some { activityData t2 a with
              unmentioned :=
                match lookupDoc st (athleteId, toString a.id) with
                | some o => o.unmentioned
                | none => [] }) := by
  constructor
  · intro now athleteId activities st
    simpa [storeActivitiesInFirebase] using
      storeActivities_count now athleteId activities st 0
  · intro t1 t2 athleteId a st hle
    have h1 : (storeActivitiesInFirebase t1 athleteId [a] st).1
        = setDocMerge st (athleteId, toString a.id) (activityData t1 a) := rfl
    have h2 : ∀ st', (storeActivitiesInFirebase t2 athleteId [a] st').1
        = setDocMerge st' (athleteId, toString a.id) (activityData t2 a) := by
      intro st'; rfl
    set k := (athleteId, toString a.id)
    have hc1 : countKey (setDocMerge st k (activityData t1 a)) k = 1 := by
      rw [countKey_setDocMerge_self]
      rcases Nat.lt_or_ge (countKey st k) 1 with hlt | hge
      · simp [Nat.lt_one_iff.mp hlt]
      · have : countKey st k = 1 := le_antisymm hle hge
        simp [this]
    constructor
    · rw [h2, h1, countKey_setDocMerge_self, hc1]
      simp
    · rw [h2, h1, lookupDoc_setDocMerge_self, lookupDoc_setDocMerge_self]
      cases hl : lookupDoc st k <;> simp [hl, activityData]

theorem store_activities_idempotent_upsert_witness :
    countKey [] (("a1", toString 42) : String × String) ≤ 1
    ∧ countKey ((storeActivitiesInFirebase 2 "a1"
        [mkActivity 42 "Morning Run" (some "Run") none (some 5000) (some 1500)
          (some 10) (some (10/3)) "2024-01-01"]
        ((storeActivitiesInFirebase 1 "a1"
          [mkActivity 42 "Morning Run" (some "Run") none (some 5000) (some 1500)
            (some 10) (some (10/3)) "2024-01-01"] []).1)).1)
        ("a1", toString 42) = 1 := by
  refine ⟨by decide, ?_⟩
  exact (store_activities_idempotent_upsert.2 1 2 "a1"
    (mkActivity 42 "Morning Run" (some "Run") none (some 5000) (some 1500)
      (some 10) (some (10/3)) "2024-01-01") [] (by decide)).1

/-! ### Theorems about the sync orchestrator and the staleness check -/

/-- C5: every stage of a full sync is independently try/caught.  First
conjunct, for all stage outcomes: the overall `success` flag is exactly
"the error list is empty"; the error list is the concatenation, in stage
order, of one prefixed message per failed stage; and each stage's reported
result depends only on that stage's own outcome (so a failure in one stage
does not abort or alter the later stages).  Second conjunct, the claimed
scenario: when only the stats stage throws, the result has `success false`,
`errors = ["Athlete stats sync failed: ..."]`, while the profile and
activities results each report success. -/
theorem sync_partial_failure_semantics :
    (∀ (p s : Except String Unit) (acts : Except String Nat),
      (syncAllDataToFirebase p s acts).success
        = (syncAllDataToFirebase p s acts).errors.isEmpty
      ∧ (syncAllDataToFirebase p s acts).errors
        = (match p with
           | .ok _ => []
           | .error e => ["Athlete profile sync failed: " ++ e])
          ++ (match s with
              | .ok _ => []
              | .error e => ["Athlete stats sync failed: " ++ e])
          ++ (match acts with
              | .ok _ => []
              | .error e => ["Activities sync failed: " ++ e])
      ∧ (syncAllDataToFirebase p s acts).results.athlete
        = some (match p with
                | .ok _ => ⟨true, none⟩
                | .error e => ⟨false, some e⟩)
      ∧ (syncAllDataToFirebase p s acts).results.stats
        = some (match s with
                | .ok _ => ⟨true, none⟩
                | .error e => ⟨false, some e⟩)
      ∧ (syncAllDataToFirebase p s acts).results.activities
        = some (match acts with
                | .ok n => ⟨true, some n,
                    some ("Successfully stored " ++ toString n
                      ++ " activities in Firebase"), none⟩
                | .error e => ⟨false, none, none, some e⟩))
    ∧ (∀ (e : String) (n : Nat),
        syncAllDataToFirebase (.ok ()) (.error e) (.ok n)
          = ⟨false,
              ⟨some ⟨true, none⟩, some ⟨false, some e⟩,
               some ⟨true, some n,
                 some ("Successfully stored " ++ toString n
                   ++ " activities in Firebase"), none⟩,
               ["Athlete stats sync failed: " ++ e]⟩,
              ["Athlete stats sync failed: " ++ e]⟩) := by
  constructor
  · intro p s acts
    cases p <;> cases s <;> cases acts <;>
      simp [syncAllDataToFirebase]
  · intro e n
    rfl

/-- C9: `needsSync` returns true when the stored status is absent, cannot be
read, or carries no `lastSyncTime`; when a `lastSyncTime` exists it returns
true exactly when the last sync is more than `maxAgeHours` hours before the
current time (strictly older), and false otherwise. -/
theorem needs_sync_staleness_check :
    (∀ (nowMs : Int) (maxAgeHours : ℚ),
      needsSync (.ok none) nowMs maxAgeHours = true)
    ∧ (∀ (err : String) (nowMs : Int) (maxAgeHours : ℚ),
        needsSync (.error err) nowMs maxAgeHours = true)
    ∧ (∀ (st : SyncStatusDoc) (nowMs : Int) (maxAgeHours : ℚ),
        st.lastSyncTime = none → needsSync (.ok (some st)) nowMs maxAgeHours = true)
    ∧ (∀ (st : SyncStatusDoc) (lastSync nowMs : Int) (maxAgeHours : ℚ),
        st.lastSyncTime = some lastSync →
        (needsSync (.ok (some st)) nowMs maxAgeHours = true
          ↔ maxAgeHours * 3600000 < (nowMs : ℚ) - (lastSync : ℚ))) := by
  refine ⟨fun _ _ => rfl, fun _ _ _ => rfl, fun st n h hnone => ?_, ?_⟩
  · simp [needsSync, hnone]
  · intro st lastSync nowMs maxAgeHours hsome
    simp only [needsSync, hsome, decide_eq_true_eq]
    constructor <;> intro h <;> nlinarith [h]

theorem needs_sync_staleness_check_witness :
    needsSync (.ok (some ⟨some 0, true, []⟩)) 90000000 24 = true := by
  exact (needs_sync_staleness_check.2.2.2 ⟨some 0, true, []⟩ 0 90000000 24
    rfl).mpr (by norm_num)

/-! ### Theorems about the PR aggregation engine -/

/-- The per-target slot update restated through the candidate a single
activity offers. -/
theorem updateTargetSlot_eq (a : Activity) (D : ℚ) (s : PRSlot) :
    updateTargetSlot a D s
      = match candidateTime D a with
        | none => s
        | some c =>
          if slotImproves s c
          then ⟨some c, some (refDOf a), some (candidateMethod D a)⟩
          else s := by
  unfold updateTargetSlot candidateTime candidateMethod
  by_cases h1 : |a.distance.getD 0 - D| ≤ D * 0.05
  · simp [h1]
  · by_cases h2 : a.distance.getD 0 ≥ D <;> simp [h1, h2]

theorem slotFold_snoc (D : ℚ) (l : List Activity) (b : Activity) :
    slotFold D (l ++ [b]) = updateTargetSlot b D (slotFold D l) := by
  simp [slotFold, List.foldl_append]

/-- The per-target fold keeps exactly the minimum candidate time, together
with the reference and method of the activity that achieved it (the first
strictly smaller candidate in iteration order). -/
theorem slotFold_spec (D : ℚ) (l : List Activity) :
    ((slotFold D l).timeSeconds = none ↔ ∀ a ∈ l, candidateTime D a = none)
    ∧ ∀ t, (slotFold D l).timeSeconds = some t →
        ((∃ a ∈ l, candidateTime D a = some t
            ∧ (slotFold D l).method = some (candidateMethod D a)
            ∧ (slotFold D l).activity = some (refDOf a))
          ∧ ∀ a ∈ l, ∀ c, candidateTime D a = some c → t ≤ c) := by
  induction l using List.reverseRecOn with
  | nil => simp [slotFold, emptyPRSlot]
  | append_singleton l b ih =>
    rw [slotFold_snoc, updateTargetSlot_eq]
    rcases hc : candidateTime D b with _ | c
    · constructor
      · rw [ih.1]
        constructor
        · intro hall a ha
          rcases List.mem_append.mp ha with ha | ha
          · exact hall a ha
          · rw [List.mem_singleton.mp ha]; exact hc
        · intro hall a ha
          exact hall a (List.mem_append.mpr (Or.inl ha))
      · intro t ht
        obtain ⟨⟨a, ha, hcand, hmeth, hact⟩, hub⟩ := ih.2 t ht
        refine ⟨⟨a, List.mem_append.mpr (Or.inl ha), hcand, hmeth, hact⟩, ?_⟩
        intro a' ha' c' hc'
        rcases List.mem_append.mp ha' with ha' | ha'
        · exact hub a' ha' c' hc'
        · rw [List.mem_singleton.mp ha'] at hc'; rw [hc] at hc'; cases hc'
    · dsimp only
      cases ht0 : (slotFold D l).timeSeconds with
      | none =>
        have himp : slotImproves (slotFold D l) c = true := by
          simp [slotImproves, ht0]
        rw [if_pos himp]
        constructor
        · constructor
          · intro h; simp at h
          · intro hall
            have hb := hall b (by simp)
            rw [hc] at hb; cases hb
        · intro t ht
          have ht' : some c = some t := ht
          have htc : c = t := by injection ht'
          subst htc
          refine ⟨⟨b, by simp, hc, rfl, rfl⟩, ?_⟩
          intro a' ha' c' hc'
          rcases List.mem_append.mp ha' with ha' | ha'
          · have hnone := (ih.1.mp ht0) a' ha'
            rw [hnone] at hc'; cases hc'
          · rw [List.mem_singleton.mp ha'] at hc'
            rw [hc] at hc'
            have : c = c' := by injection hc'
            exact le_of_eq this
      | some t0 =>
        by_cases hlt : c < t0
        · have himp : slotImproves (slotFold D l) c = true := by
            simp [slotImproves, ht0, hlt]
          rw [if_pos himp]
          constructor
          · constructor
            · intro h; simp at h
            · intro hall
              have hb := hall b (by simp)
              rw [hc] at hb; cases hb
          · intro t ht
            have ht' : some c = some t := ht
            have htc : c = t := by injection ht'
            subst htc
            obtain ⟨_, hub0⟩ := ih.2 t0 ht0
            refine ⟨⟨b, by simp, hc, rfl, rfl⟩, ?_⟩
            intro a' ha' c' hc'
            rcases List.mem_append.mp ha' with ha' | ha'
            · exact le_trans (le_of_lt hlt) (hub0 a' ha' c' hc')
            · rw [List.mem_singleton.mp ha'] at hc'
              rw [hc] at hc'
              have : c = c' := by injection hc'
              exact le_of_eq this
        · have himp : slotImproves (slotFold D l) c = false := by
            simp [slotImproves, ht0, hlt]
          rw [if_neg (by simp [himp])]
          constructor
          · constructor
            · intro h; rw [ht0] at h; cases h
            · intro hall
              have hb := hall b (by simp)
              rw [hc] at hb; cases hb
          · intro t ht
            rw [ht0] at ht
            have htt : t0 = t := by injection ht
            obtain ⟨⟨a, ha, hcand, hmeth, hact⟩, hub0⟩ := ih.2 t0 ht0
            subst htt
            refine ⟨⟨a, List.mem_append.mpr (Or.inl ha), hcand, hmeth, hact⟩, ?_⟩
            intro a' ha' c' hc'
            rcases List.mem_append.mp ha' with ha' | ha'
            · exact hub0 a' ha' c' hc'
            · rw [List.mem_singleton.mp ha'] at hc'
              rw [hc] at hc'
              have hcc : c = c' := by injection hc'
              rw [← hcc]
              exact not_lt.mp hlt

/-- One step of the running pass either applies the target/longest updates
(when the activity is a run with truthy distance and moving time) or leaves
the state untouched. -/
theorem stepRunningPR_eq (st : RunningPRs) (a : Activity) :
    stepRunningPR st a
      = if qualifiesRun a
        then ⟨fun i => updateTargetSlot a (runTargets.get i).2 (st.slots i),
              updEntry a.distance (refOf a) st.longest⟩
        else st := by
  unfold stepRunningPR qualifiesRun
  by_cases h1 : toLowerCase (sportOf a) = "run" <;>
    by_cases h2 : toLowerCase (sportOf a) = "running" <;>
      by_cases h3 : truthyQ a.distance = true <;>
        by_cases h4 : truthyQ a.moving_time = true <;>
          simp_all

/-- Each target slot of the running pass is the per-target fold over the
qualifying activities in iteration order. -/
theorem getRunningPRs_slots_eq (acts : List Activity) (i : Fin runTargets.length) :
    (getRunningPRs acts).slots i
      = slotFold (runTargets.get i).2 (acts.filter qualifiesRun) := by
  suffices h : ∀ st : RunningPRs,
      (acts.foldl stepRunningPR st).slots i
        = (acts.filter qualifiesRun).foldl
            (fun s a => updateTargetSlot a (runTargets.get i).2 s) (st.slots i) by
    exact h ⟨fun _ => emptyPRSlot, ⟨0, none⟩⟩
  intro st
  induction acts generalizing st with
  | nil => rfl
  | cons a acts ih =>
    rw [List.foldl_cons, stepRunningPR_eq]
    cases hq : qualifiesRun a with
    | false => simp [hq, List.filter_cons, ih]
    | true =>
      simp only [hq, if_true, List.filter_cons]
      rw [List.foldl_cons]
      exact ih _

/-- C3: in the running pass, each qualifying run offers, per target, its
`moving_time` as an exact candidate when within 5% of the target, else the
linearly scaled time when at least as long as the target
(`candidateTime`/`candidateMethod`); each target keeps the minimum
candidate over all qualifying activities, exact and estimated candidates
competing on the same minimum, recording the achieving activity and its
method.  The concrete conjunct: a 5000 m run in 1500 s and a 10000 m run in
2800 s make the 5k result 1400 s with method `"estimate"`. -/
theorem running_pr_minimum_candidate :
    (∀ (i : Fin runTargets.length) (acts : List Activity),
      (((getRunningPRs acts).slots i).timeSeconds = none
        ↔ ∀ a ∈ acts.filter qualifiesRun,
            candidateTime (runTargets.get i).2 a = none)
      ∧ ∀ t, ((getRunningPRs acts).slots i).timeSeconds = some t →
          ((∃ a ∈ acts.filter qualifiesRun,
              candidateTime (runTargets.get i).2 a = some t
              ∧ ((getRunningPRs acts).slots i).method
                  = some (candidateMethod (runTargets.get i).2 a)
              ∧ ((getRunningPRs acts).slots i).activity = some (refDOf a))
            ∧ ∀ a ∈ acts.filter qualifiesRun, ∀ c,
                candidateTime (runTargets.get i).2 a = some c → t ≤ c))
    ∧ (getRunningPRs [run5kExample, run10kExample]).slots ⟨3, by decide⟩
        = ⟨some 1400, some (refDOf run10kExample), some "estimate"⟩ := by
  constructor
  · intro i acts
    rw [getRunningPRs_slots_eq]
    exact slotFold_spec _ _
  · have hfilter : List.filter qualifiesRun [run5kExample, run10kExample]
        = [run5kExample, run10kExample] := rfl
    have htgt : (runTargets.get ⟨3, by decide⟩).2 = 5000 := rfl
    rw [getRunningPRs_slots_eq, hfilter, htgt]
    norm_num [slotFold, List.foldl, updateTargetSlot, slotImproves, emptyPRSlot,
      run5kExample, run10kExample, mkActivity, refDOf, abs_le]

theorem running_pr_minimum_candidate_witness :
    ((getRunningPRs [run5kExample, run10kExample]).slots ⟨3, by decide⟩).timeSeconds
        = some 1400
    ∧ (1400 : ℚ) ≤ 1500 := by
  have hts : ((getRunningPRs [run5kExample, run10kExample]).slots
      ⟨3, by decide⟩).timeSeconds = some 1400 := by
    rw [running_pr_minimum_candidate.2]
  refine ⟨hts, ?_⟩
  have hcand5000 : candidateTime 5000 run5kExample = some 1500 := by
    norm_num [candidateTime, run5kExample, mkActivity, abs_le]
  have hcand : candidateTime (runTargets.get ⟨3, by decide⟩).2 run5kExample
      = some 1500 := hcand5000
  have hfilter : List.filter qualifiesRun [run5kExample, run10kExample]
      = [run5kExample, run10kExample] := rfl
  have hmem : run5kExample
      ∈ List.filter qualifiesRun [run5kExample, run10kExample] := by
    rw [hfilter]; simp
  exact ((running_pr_minimum_candidate.1 ⟨3, by decide⟩
      [run5kExample, run10kExample]).2 1400 hts).2 run5kExample hmem 1500 hcand

/-! ### The strict-max record fold -/

theorem entryFold_snoc (f : Activity → Option ℚ) (l : List Activity)
    (b : Activity) (e0 : RecordEntry) :
    entryFold f (l ++ [b]) e0 = updEntry (f b) (refOf b) (entryFold f l e0) := by
  simp [entryFold, List.foldl_append]

theorem listMaxQ_snoc (xs : List ℚ) (v : ℚ) :
    listMaxQ (xs ++ [v]) = max (listMaxQ xs) v := by
  simp [listMaxQ, List.foldl_append]

theorem listMaxQ_nonneg (xs : List ℚ) : 0 ≤ listMaxQ xs := by
  induction xs using List.reverseRecOn with
  | nil => simp [listMaxQ]
  | append_singleton xs v ih =>
    rw [listMaxQ_snoc]
    exact le_trans ih (le_max_left _ _)

theorem firstAttainer_append_of_ne (f : Activity → Option ℚ) (v : ℚ)
    (l : List Activity) (b : Activity) (h : ¬ f b = some v) :
    firstAttainer f v (l ++ [b]) = firstAttainer f v l := by
  unfold firstAttainer
  rw [List.find?_append]
  have hbeq : (f b == some v) = false := by simp [h]
  have hb : List.find? (fun a => f a == some v) [b] = none := by
    simp [List.find?, hbeq]
  rw [hb, Option.or_none]

theorem firstAttainer_append_attained (f : Activity → Option ℚ) (v : ℚ)
    (l : List Activity) (b : Activity) (x : Activity)
    (h : List.find? (fun a => f a == some v) l = some x) :
    firstAttainer f v (l ++ [b]) = firstAttainer f v l := by
  unfold firstAttainer
  rw [List.find?_append, h]
  rfl

theorem firstAttainer_append_new (f : Activity → Option ℚ) (v : ℚ)
    (l : List Activity) (b : Activity)
    (hl : List.find? (fun a => f a == some v) l = none) (hb : f b = some v) :
    firstAttainer f v (l ++ [b]) = some (refOf b) := by
  unfold firstAttainer
  rw [List.find?_append, hl]
  simp [List.find?, hb]

/-- A strict-max record fold from the initial `{ value: 0, activity: null }`
holds the maximum of the measured values (floored at 0), names the first
activity in iteration order attaining it (first-seen wins ties, no activity
when nothing beats 0), bounds every measured value, and attains a positive
maximum. -/
theorem entryFold_spec (f : Activity → Option ℚ) (l : List Activity) :
    (entryFold f l ⟨0, none⟩).value = listMaxQ (l.filterMap f)
    ∧ (entryFold f l ⟨0, none⟩).activity
        = (if 0 < listMaxQ (l.filterMap f)
           then firstAttainer f (listMaxQ (l.filterMap f)) l
           else none)
    ∧ (∀ a ∈ l, ∀ v, f a = some v → v ≤ listMaxQ (l.filterMap f))
    ∧ (0 < listMaxQ (l.filterMap f)
        → ∃ a ∈ l, f a = some (listMaxQ (l.filterMap f))) := by
  induction l using List.reverseRecOn with
  | nil => simp [entryFold, listMaxQ, firstAttainer]
  | append_singleton l b ih =>
    obtain ⟨ihv, iha, ihub, ihat⟩ := ih
    rw [entryFold_snoc]
    cases hfb : f b with
    | none =>
      have hfm : (l ++ [b]).filterMap f = l.filterMap f := by
        simp [List.filterMap_append, hfb]
      rw [hfm]
      refine ⟨ihv, ?_, ?_, ?_⟩
      · rw [firstAttainer_append_of_ne f _ l b (by simp [hfb])]
        exact iha
      · intro a ha v hv
        rcases List.mem_append.mp ha with ha | ha
        · exact ihub a ha v hv
        · rw [List.mem_singleton.mp ha] at hv
          rw [hfb] at hv; cases hv
      · intro hpos
        obtain ⟨a, ha, hav⟩ := ihat hpos
        exact ⟨a, List.mem_append.mpr (Or.inl ha), hav⟩
    | some v =>
      have hfm : (l ++ [b]).filterMap f = l.filterMap f ++ [v] := by
        simp [List.filterMap_append, hfb]
      rw [hfm, listMaxQ_snoc]
      by_cases hvM : listMaxQ (l.filterMap f) < v
      · have hupd : updEntry (some v) (refOf b) (entryFold f l ⟨0, none⟩)
            = ⟨v, some (refOf b)⟩ := by
          simp [updEntry, ihv, hvM]
        rw [hupd]
        have hmax : max (listMaxQ (l.filterMap f)) v = v :=
          max_eq_right (le_of_lt hvM)
        rw [hmax]
        refine ⟨rfl, ?_, ?_, ?_⟩
        · have hpos : 0 < v := lt_of_le_of_lt (listMaxQ_nonneg _) hvM
          rw [if_pos hpos]
          have hnone : List.find? (fun a => f a == some v) l = none := by
            rw [List.find?_eq_none]
            intro x hx hbeq
            have hfx : f x = some v := by simpa using hbeq
            exact absurd (ihub x hx v hfx) (not_le.mpr hvM)
          rw [firstAttainer_append_new f v l b hnone hfb]
        · intro a ha w hw
          rcases List.mem_append.mp ha with ha | ha
          · exact le_trans (ihub a ha w hw) (le_of_lt hvM)
          · rw [List.mem_singleton.mp ha] at hw
            rw [hfb] at hw
            have hvw : v = w := by injection hw
            exact le_of_eq hvw.symm
        · intro _
          exact ⟨b, List.mem_append.mpr (Or.inr (by simp)), hfb⟩
      · have hle : v ≤ listMaxQ (l.filterMap f) := not_lt.mp hvM
        have hupd : updEntry (some v) (refOf b) (entryFold f l ⟨0, none⟩)
            = entryFold f l ⟨0, none⟩ := by
          simp [updEntry, ihv, hvM]
        rw [hupd]
        have hmax : max (listMaxQ (l.filterMap f)) v = listMaxQ (l.filterMap f) :=
          max_eq_left hle
        rw [hmax]
        refine ⟨ihv, ?_, ?_, ?_⟩
        · rw [iha]
          by_cases hpos : 0 < listMaxQ (l.filterMap f)
          · rw [if_pos hpos, if_pos hpos]
            obtain ⟨a, ha, hav⟩ := ihat hpos
            cases hfind : List.find?
                (fun x => f x == some (listMaxQ (l.filterMap f))) l with
            | none =>
              exfalso
              rw [List.find?_eq_none] at hfind
              exact absurd (by simpa using hav) (hfind a ha)
            | some x =>
              rw [firstAttainer_append_attained f _ l b x hfind]
          · rw [if_neg hpos, if_neg hpos]
        · intro a ha w hw
          rcases List.mem_append.mp ha with ha | ha
          · exact ihub a ha w hw
          · rw [List.mem_singleton.mp ha] at hw
            rw [hfb] at hw
            have hvw : v = w := by injection hw
            exact le_trans (le_of_eq hvw.symm) hle
        · intro hpos
          obtain ⟨a, ha, hav⟩ := ihat hpos
          exact ⟨a, List.mem_append.mpr (Or.inl ha), hav⟩

/-! ### Theorems about `getPersonalRecords` -/

/-- The `sports` map built by `getPersonalRecords`, read at one sport, is
the fold of the per-activity record update over that sport's group. -/
theorem getPersonalRecords_proj (acts : List Activity) (sport : String) :
    ∀ m : String → Option SportRecord,
      (acts.foldl prStep m) sport
        = (acts.filter (fun a => sportOf a == sport)).foldl
            (fun os a => some (sportRecordUpdate a (os.getD emptySportRecord)))
            (m sport) := by
  induction acts with
  | nil => intro m; rfl
  | cons a acts ih =>
    intro m
    by_cases hs : sportOf a = sport
    · have hfil : List.filter (fun x => sportOf x == sport) (a :: acts)
          = a :: List.filter (fun x => sportOf x == sport) acts := by
        simp [List.filter_cons, hs]
      rw [List.foldl_cons, hfil, List.foldl_cons, ih]
      congr 1
      simp [prStep, hs]
    · have hs' : ¬ sport = sportOf a := fun h => hs h.symm
      have hfil : List.filter (fun x => sportOf x == sport) (a :: acts)
          = List.filter (fun x => sportOf x == sport) acts := by
        simp [List.filter_cons, hs]
      rw [List.foldl_cons, hfil, ih]
      congr 1
      simp [prStep, hs']

theorem optionGroupFold_some (l : List Activity) (r0 : SportRecord) :
    l.foldl (fun os a => some (sportRecordUpdate a (os.getD emptySportRecord)))
        (some r0)
      = some (sportGroupFold l r0) := by
  induction l generalizing r0 with
  | nil => rfl
  | cons a l ih =>
    rw [List.foldl_cons]
    simpa [sportGroupFold] using ih (sportRecordUpdate a r0)

theorem optionGroupFold_none (l : List Activity) :
    l.foldl (fun os a => some (sportRecordUpdate a (os.getD emptySportRecord)))
        none
      = match l with
        | [] => none
        | _ :: _ => some (sportGroupFold l emptySportRecord) := by
  cases l with
  | nil => rfl
  | cons a l =>
    rw [List.foldl_cons]
    simpa [sportGroupFold] using
      optionGroupFold_some l (sportRecordUpdate a emptySportRecord)

/-- The per-sport record fold componentwise: the count counts the group and
each max record is a strict-max entry fold. -/
theorem sportGroupFold_components (l : List Activity) (r0 : SportRecord) :
    (sportGroupFold l r0).total_activities = r0.total_activities + l.length
    ∧ (sportGroupFold l r0).longest_distance
        = entryFold (fun a => a.distance) l r0.longest_distance
    ∧ (sportGroupFold l r0).max_average_speed
        = entryFold (fun a => a.average_speed) l r0.max_average_speed
    ∧ (sportGroupFold l r0).max_total_elevation_gain
        = entryFold (fun a => a.total_elevation_gain) l
            r0.max_total_elevation_gain := by
  induction l generalizing r0 with
  | nil => simp [sportGroupFold, entryFold]
  | cons a l ih =>
    obtain ⟨iht, ihl, ihs, ihe⟩ := ih (sportRecordUpdate a r0)
    have hstep : sportGroupFold (a :: l) r0
        = sportGroupFold l (sportRecordUpdate a r0) := rfl
    refine ⟨?_, ?_, ?_, ?_⟩
    · rw [hstep, iht, List.length_cons]
      simp [sportRecordUpdate]
      omega
    · rw [hstep, ihl]; rfl
    · rw [hstep, ihs]; rfl
    · rw [hstep, ihe]; rfl

/-- C7: `getPersonalRecords` groups activities by `sport_type`, falling
back to `type` and then `"Unknown"` (`sportOf`), counts each group, and
tracks the three per-group maxima with strict-improvement updates.  General
part: a sport is present in the result exactly when its group is nonempty,
and its record holds the group's size together with, per metric, the
maximum measured value (floored at the initial 0) achieved by the first
activity in iteration order attaining it — so on ties the first-seen
activity remains the record-holder.  Concrete part: two hikes with the same
7000 m distance keep the first as the distance record-holder, and the
`type`/`"Unknown"` fallbacks group as claimed. -/
theorem per_sport_records_strict_improvement :
    (∀ (acts : List Activity) (sport : String),
      (getPersonalRecords acts sport = none
        ↔ acts.filter (fun a => sportOf a == sport) = [])
      ∧ ∀ r, getPersonalRecords acts sport = some r →
          r.total_activities
              = (acts.filter (fun a => sportOf a == sport)).length
          ∧ r.longest_distance.value
              = listMaxQ ((acts.filter (fun a => sportOf a == sport)).filterMap
                  (fun a => a.distance))
          ∧ r.longest_distance.activity
              = (if 0 < r.longest_distance.value
                 then firstAttainer (fun a => a.distance)
                    r.longest_distance.value
                    (acts.filter (fun a => sportOf a == sport))
                 else none)
          ∧ r.max_average_speed.value
              = listMaxQ ((acts.filter (fun a => sportOf a == sport)).filterMap
                  (fun a => a.average_speed))
          ∧ r.max_average_speed.activity
              = (if 0 < r.max_average_speed.value
                 then firstAttainer (fun a => a.average_speed)
                    r.max_average_speed.value
                    (acts.filter (fun a => sportOf a == sport))
                 else none)
          ∧ r.max_total_elevation_gain.value
              = listMaxQ ((acts.filter (fun a => sportOf a == sport)).filterMap
                  (fun a => a.total_elevation_gain))
          ∧ r.max_total_elevation_gain.activity
              = (if 0 < r.max_total_elevation_gain.value
                 then firstAttainer (fun a => a.total_elevation_gain)
                    r.max_total_elevation_gain.value
                    (acts.filter (fun a => sportOf a == sport))
                 else none))
    ∧ ((getPersonalRecords [tieFirstHike, tieSecondHike]) "Hike").map
          (fun r => r.longest_distance)
        = some ⟨7000, some (refOf tieFirstHike)⟩
    ∧ ((getPersonalRecords [fallbackTypedHike, fallbackUnknown]) "Hike").map
          (fun r => r.total_activities) = some 1
    ∧ ((getPersonalRecords [fallbackTypedHike, fallbackUnknown]) "Unknown").map
          (fun r => r.total_activities) = some 1 := by
  refine ⟨?_, by decide, by decide, by decide⟩
  intro acts sport
  have hproj := getPersonalRecords_proj acts sport (fun _ => none)
  rw [optionGroupFold_none] at hproj
  cases hg : acts.filter (fun a => sportOf a == sport) with
  | nil =>
    rw [hg] at hproj
    constructor
    · rw [show getPersonalRecords acts sport
          = (acts.foldl prStep fun _ => none) sport from rfl, hproj]
      simp
    · intro r hr
      rw [show getPersonalRecords acts sport
          = (acts.foldl prStep fun _ => none) sport from rfl, hproj] at hr
      cases hr
  | cons a g =>
    rw [hg] at hproj
    have hsome : getPersonalRecords acts sport
        = some (sportGroupFold (a :: g) emptySportRecord) := hproj
    constructor
    · rw [hsome]; simp
    · intro r hr
      rw [hsome] at hr
      have hrr : r = sportGroupFold (a :: g) emptySportRecord := by
        injection hr with h; exact h.symm
      obtain ⟨hcnt, hlon, hspd, hele⟩ :=
        sportGroupFold_components (a :: g) emptySportRecord
      obtain ⟨hlv, hla, _, _⟩ := entryFold_spec (fun a => a.distance) (a :: g)
      obtain ⟨hsv, hsa, _, _⟩ := entryFold_spec (fun a => a.average_speed) (a :: g)
      obtain ⟨hev, hea, _, _⟩ :=
        entryFold_spec (fun a => a.total_elevation_gain) (a :: g)
      subst hrr
      refine ⟨by rw [hcnt]; simp [emptySportRecord], ?_, ?_, ?_, ?_, ?_, ?_⟩
      · rw [hlon]; exact hlv
      · rw [hlon,
          show emptySportRecord.longest_distance = (⟨0, none⟩ : RecordEntry)
            from rfl, hlv, hla]
      · rw [hspd]; exact hsv
      · rw [hspd,
          show emptySportRecord.max_average_speed = (⟨0, none⟩ : RecordEntry)
            from rfl, hsv, hsa]
      · rw [hele]; exact hev
      · rw [hele,
          show emptySportRecord.max_total_elevation_gain
              = (⟨0, none⟩ : RecordEntry) from rfl, hev, hea]

theorem per_sport_records_strict_improvement_witness :
    ((getPersonalRecords [tieFirstHike, tieSecondHike]) "Hike").map
        (fun r => r.total_activities) = some 2 := by
  cases hr : getPersonalRecords [tieFirstHike, tieSecondHike] "Hike" with
  | none => exact absurd hr (by decide)
  | some r =>
    have h2 := ((per_sport_records_strict_improvement.1
      [tieFirstHike, tieSecondHike] "Hike").2 r hr).1
    simp only [Option.map_some']
    rw [h2]
    decide

/-! ### Theorems about `getCyclingPRs` -/

theorem sportOf_ne_empty (a : Activity) : ¬ sportOf a = "" := by
  unfold sportOf
  cases h : jsOrStr a.sport_type a.type_ with
  | none => decide
  | some s =>
    by_cases hs : s = "" <;> simp [hs]

/-- One step of the cycling pass either applies the target, longest-ride,
biggest-climb and elevation-sum updates (when the activity is a ride or a
cycling activity — the duplicated `'ride'` disjunct of the source filter
collapses to that two-element set — with truthy distance and moving time)
or leaves the state untouched. -/
theorem stepCyclingPR_eq (st : CyclingPRs) (a : Activity) :
    stepCyclingPR st a
      = if qualifiesCycle a
        then { slots := fun i =>
                 updateTargetSlot a (cyclingTargets.get i).2 (st.slots i)
               longest := updEntry a.distance (refOf a) st.longest
               biggestClimb := updEntry (some (a.total_elevation_gain.getD 0))
                 (refOf a) st.biggestClimb
               totalElevationGain :=
                 st.totalElevationGain + a.total_elevation_gain.getD 0 }
        else st := by
  unfold stepCyclingPR qualifiesCycle
  have h0 : ¬ sportOf a = "" := sportOf_ne_empty a
  by_cases h1 : toLowerCase (sportOf a) = "ride" <;>
    by_cases h2 : toLowerCase (sportOf a) = "cycling" <;>
      by_cases h3 : truthyQ a.distance = true <;>
        by_cases h4 : truthyQ a.moving_time = true <;>
          simp_all

/-- Componentwise characterisation of the whole cycling pass: the elevation
total is a running sum over the qualifying rides, the longest ride and the
biggest climb are strict-max folds, and each target slot is the per-target
candidate fold. -/
theorem getCyclingPRs_components (acts : List Activity) :
    (getCyclingPRs acts).totalElevationGain
        = ((acts.filter qualifiesCycle).map
            (fun a => a.total_elevation_gain.getD 0)).sum
    ∧ (getCyclingPRs acts).longest
        = entryFold (fun a => a.distance) (acts.filter qualifiesCycle) ⟨0, none⟩
    ∧ (getCyclingPRs acts).biggestClimb
        = entryFold (fun a => some (a.total_elevation_gain.getD 0))
            (acts.filter qualifiesCycle) ⟨0, none⟩
    ∧ ∀ i, (getCyclingPRs acts).slots i
        = slotFold (cyclingTargets.get i).2 (acts.filter qualifiesCycle) := by
  suffices h : ∀ st : CyclingPRs,
      (acts.foldl stepCyclingPR st).totalElevationGain
          = st.totalElevationGain
            + ((acts.filter qualifiesCycle).map
                (fun a => a.total_elevation_gain.getD 0)).sum
      ∧ (acts.foldl stepCyclingPR st).longest
          = entryFold (fun a => a.distance) (acts.filter qualifiesCycle)
              st.longest
      ∧ (acts.foldl stepCyclingPR st).biggestClimb
          = entryFold (fun a => some (a.total_elevation_gain.getD 0))
              (acts.filter qualifiesCycle) st.biggestClimb
      ∧ ∀ i, (acts.foldl stepCyclingPR st).slots i
          = (acts.filter qualifiesCycle).foldl
              (fun s a => updateTargetSlot a (cyclingTargets.get i).2 s)
              (st.slots i) by
    obtain ⟨ht, hl, hb, hs⟩ := h ⟨fun _ => emptyPRSlot, ⟨0, none⟩, ⟨0, none⟩, 0⟩
    exact ⟨by simpa using ht, hl, hb, hs⟩
  induction acts with
  | nil =>
    intro st
    exact ⟨by simp, rfl, rfl, fun i => rfl⟩
  | cons a acts ih =>
    intro st
    rw [List.foldl_cons, stepCyclingPR_eq]
    cases hq : qualifiesCycle a with
    | false =>
      have hfil : List.filter qualifiesCycle (a :: acts)
          = List.filter qualifiesCycle acts := by
        simp [List.filter_cons, hq]
      rw [hfil]
      simp only [hq, Bool.false_eq_true, if_false]
      exact ih st
    | true =>
      have hfil : List.filter qualifiesCycle (a :: acts)
          = a :: List.filter qualifiesCycle acts := by
        simp [List.filter_cons, hq]
      simp only [hq, if_true]
      rw [hfil]
      obtain ⟨iht, ihl, ihb, ihs⟩ := ih
        ⟨fun i => updateTargetSlot a (cyclingTargets.get i).2 (st.slots i),
         updEntry a.distance (refOf a) st.longest,
         updEntry (some (a.total_elevation_gain.getD 0)) (refOf a)
           st.biggestClimb,
         st.totalElevationGain + a.total_elevation_gain.getD 0⟩
      refine ⟨?_, ?_, ?_, ?_⟩
      · rw [iht]
        simp only [List.map_cons, List.sum_cons]
        ring
      · rw [ihl]; rfl
      · rw [ihb]; rfl
      · intro i; rw [ihs i]; rfl

/-- C8: the cycling pass considers exactly the activities whose sport
(`sport_type` falling back to `type`) matches `ride` or `cycling`
case-insensitively and carries truthy distance and moving time — the
source's duplicated `'ride'` disjunct adds nothing (first conjunct) — and
over those qualifying rides it tracks the longest ride and the biggest
single-activity climb as strict maxima (first attainer kept) while
`Elevation Gain` is the cumulative sum of `total_elevation_gain || 0` over
all qualifying rides, not a maximum (second conjunct).  Concretely: a 500 m
climb ride and a 300 m climb `CYCLING` activity (with a zero-distance ride
ignored) give a total of 800 with biggest climb 500. -/
theorem cycling_pr_aggregates :
    (∀ (st : CyclingPRs) (a : Activity),
      stepCyclingPR st a
        = if qualifiesCycle a
          then { slots := fun i =>
                   updateTargetSlot a (cyclingTargets.get i).2 (st.slots i)
                 longest := updEntry a.distance (refOf a) st.longest
                 biggestClimb :=
                   updEntry (some (a.total_elevation_gain.getD 0)) (refOf a)
                     st.biggestClimb
                 totalElevationGain :=
                   st.totalElevationGain + a.total_elevation_gain.getD 0 }
          else st)
    ∧ (∀ acts : List Activity,
        (getCyclingPRs acts).totalElevationGain
            = ((acts.filter qualifiesCycle).map
                (fun a => a.total_elevation_gain.getD 0)).sum
        ∧ (getCyclingPRs acts).biggestClimb.value
            = listMaxQ ((acts.filter qualifiesCycle).map
                (fun a => a.total_elevation_gain.getD 0))
        ∧ (getCyclingPRs acts).biggestClimb.activity
            = (if 0 < (getCyclingPRs acts).biggestClimb.value
               then firstAttainer (fun a => some (a.total_elevation_gain.getD 0))
                  (getCyclingPRs acts).biggestClimb.value
                  (acts.filter qualifiesCycle)
               else none)
        ∧ (getCyclingPRs acts).longest.value
            = listMaxQ ((acts.filter qualifiesCycle).filterMap
                (fun a => a.distance))
        ∧ (getCyclingPRs acts).longest.activity
            = (if 0 < (getCyclingPRs acts).longest.value
               then firstAttainer (fun a => a.distance)
                  (getCyclingPRs acts).longest.value
                  (acts.filter qualifiesCycle)
               else none))
    ∧ (getCyclingPRs [rideExample, zeroDistanceRide, cyclingExample]).totalElevationGain
        = 800
    ∧ (getCyclingPRs [rideExample, zeroDistanceRide, cyclingExample]).biggestClimb
        = ⟨500, some (refOf rideExample)⟩
    ∧ (getCyclingPRs [rideExample, zeroDistanceRide, cyclingExample]).longest
        = ⟨40000, some (refOf rideExample)⟩ := by
  refine ⟨stepCyclingPR_eq, ?_, ?_, by decide, by decide⟩
  · intro acts
    obtain ⟨ht, hl, hb, _⟩ := getCyclingPRs_components acts
    obtain ⟨hbv, hba, _, _⟩ := entryFold_spec
      (fun a => some (a.total_elevation_gain.getD 0)) (acts.filter qualifiesCycle)
    obtain ⟨hlv, hla, _, _⟩ := entryFold_spec
      (fun a => a.distance) (acts.filter qualifiesCycle)
    have hmap : List.filterMap (fun a => some (a.total_elevation_gain.getD 0))
        (acts.filter qualifiesCycle)
        = List.map (fun a => a.total_elevation_gain.getD 0)
            (acts.filter qualifiesCycle) :=
      congrFun (List.filterMap_eq_map
        (fun a : Activity => a.total_elevation_gain.getD 0))
        (acts.filter qualifiesCycle)
    refine ⟨ht, ?_, ?_, ?_, ?_⟩
    · rw [hb, hbv, hmap]
    · rw [hb, hbv, hba, hmap]
    · rw [hl]; exact hlv
    · rw [hl, hlv, hla]
  · have hfil : List.filter qualifiesCycle
        [rideExample, zeroDistanceRide, cyclingExample]
        = [rideExample, cyclingExample] := rfl
    rw [(getCyclingPRs_components
      [rideExample, zeroDistanceRide, cyclingExample]).1, hfil]
    norm_num [rideExample, cyclingExample, mkActivity]

/-! ### Activities with missing or zero distance / moving time -/

/-- C10: an activity whose distance or moving time is missing, null or zero
is skipped entirely by the running and cycling PR passes: inserting it
anywhere leaves both passes' complete results (every target slot, longest,
biggest climb and the elevation total) unchanged. -/
theorem invalid_activity_skipped_by_pr_passes (pre post : List Activity)
    (a : Activity)
    (h : truthyQ a.distance = false ∨ truthyQ a.moving_time = false) :
    getRunningPRs (pre ++ a :: post) = getRunningPRs (pre ++ post)
    ∧ getCyclingPRs (pre ++ a :: post) = getCyclingPRs (pre ++ post) := by
  have hqr : qualifiesRun a = false := by
    rcases h with h | h <;> simp [qualifiesRun, h]
  have hqc : qualifiesCycle a = false := by
    rcases h with h | h <;> simp [qualifiesCycle, h]
  have hr : ∀ st, stepRunningPR st a = st := by
    intro st
    rw [stepRunningPR_eq, hqr]
    simp
  have hc : ∀ st, stepCyclingPR st a = st := by
    intro st
    rw [stepCyclingPR_eq, hqc]
    simp
  constructor
  · unfold getRunningPRs
    rw [List.foldl_append, List.foldl_append, List.foldl_cons, hr]
  · unfold getCyclingPRs
    rw [List.foldl_append, List.foldl_append, List.foldl_cons, hc]

theorem invalid_activity_skipped_by_pr_passes_witness :
    getRunningPRs [run5kExample, zeroDistanceRide] = getRunningPRs [run5kExample]
    ∧ getCyclingPRs [rideExample, zeroDistanceRide]
        = getCyclingPRs [rideExample] := by
  constructor
  · exact (invalid_activity_skipped_by_pr_passes [run5kExample] []
      zeroDistanceRide (Or.inl (by decide))).1
  · exact (invalid_activity_skipped_by_pr_passes [rideExample] []
      zeroDistanceRide (Or.inl (by decide))).2

end Nudge
